import Mathlib

/-!
Verification of the clock-generation peripheral model (`simio_clock.c`) of an
MSP430 instruction-set simulator.  The C source is shallowly embedded below:

* C `double` arithmetic (the oscillator frequency model stores dimensionless
  ratios and intermediate frequencies in doubles) is embedded as exact
  fraction arithmetic over `Int` pairs (`Frac`); the final `(int32_t)` cast of
  the C code truncates toward zero and is embedded as `Int.tdiv` of the
  fraction components.  The `double` literals 1.65, 1.12, 1.35, 1.08 of
  `clock_create` are embedded as the exact decimals 33/20, 28/25, 27/20, 27/25.
* C `int`/`int32_t` arithmetic is embedded over `Int` (the in-range semantics:
  the C quantities are 32-bit and the simulator operates far below the
  overflow bounds); `/` and `%` on C ints truncate toward zero and are
  embedded as `Int.tdiv` / `Int.tmod`; `>>` on a signed int is an arithmetic
  shift, embedded as flooring division by a power of two (`Int.fdiv`).
* loops whose termination measure is not structural are given a `fuel`
  argument strictly larger than the number of iterations the C loop can
  execute, so that every function is computable by kernel reduction.
-/

namespace MspClock

/-- The two supported clock families (`clock_type_t`): `CLOCK_TYPE_BASIC` and
`CLOCK_TYPE_BASIC_PLUS`. -/
inductive ClockType where
  | basic
  | basicPlus
deriving DecidableEq

/-- Exact fraction arithmetic standing in for the C `double` computations.
`Frac` values are unnormalized pairs numerator/denominator. -/
structure Frac where
  n : Int
  d : Int
deriving DecidableEq

instance : Mul Frac := ⟨fun x y => ⟨x.n * y.n, x.d * y.d⟩⟩

instance : Add Frac := ⟨fun x y => ⟨x.n * y.d + y.n * x.d, x.d * y.d⟩⟩

instance : Div Frac := ⟨fun x y => ⟨x.n * y.d, x.d * y.n⟩⟩

/-- Embed an integer as a fraction. -/
def Frac.ofInt (v : Int) : Frac := ⟨v, 1⟩

/-- C `pow(x, k)` for an integer exponent `k`, exactly. -/
def Frac.zpow (x : Frac) (k : Int) : Frac :=
  if 0 ≤ k then ⟨x.n ^ k.toNat, x.d ^ k.toNat⟩ else ⟨x.d ^ (-k).toNat, x.n ^ (-k).toNat⟩

/-- The rational value denoted by a fraction (spec-level view of a C double). -/
def Frac.val (x : Frac) : ℚ := (x.n : ℚ) / (x.d : ℚ)

/-- C cast `(int32_t)x` of a real (double) value: truncation toward zero. -/
def cIntOfFrac (x : Frac) : Int := Int.tdiv x.n x.d

/-- C arithmetic right shift `x >> n` of a signed integer. -/
def asr (x : Int) (n : Nat) : Int := Int.fdiv x (2 ^ n)

/-- The C `struct clock`: config parameters, cached derived frequencies, the two
domain remainder accumulators and the register bytes. -/
structure Clock where
  clock_type : ClockType
  lfxt1_hz : Int
  xt2_hz : Int
  vlo_hz : Int
  dco4_3_hz : Int
  dco7_3_hz : Int
  srsel : Frac
  sdco : Frac
  dco_hz : Int
  mclk_hz : Int
  smclk_hz : Int
  aclk_hz : Int
  aclk_counter : Int
  smclk_counter : Int
  dcoctl : Nat
  bcsctl1 : Nat
  bcsctl2 : Nat
  bcsctl3 : Nat
deriving DecidableEq

/-- The caller-owned `int clocks[]` record handed to `clock_step`, with one
slot per clock domain (`SIMIO_MCLK`, `SIMIO_SMCLK`, `SIMIO_ACLK`). -/
structure Clocks where
  mclk : Int
  smclk : Int
  aclk : Int
deriving DecidableEq

/-- Register address `DCOCTL`. -/
def DCOCTL : Nat := 0x0056

/-- Register address `BCSCTL1`. -/
def BCSCTL1 : Nat := 0x0057

/-- Register address `BCSCTL2`. -/
def BCSCTL2 : Nat := 0x0058

/-- Register address `BCSCTL3` (Basic+ only). -/
def BCSCTL3 : Nat := 0x0053

/-- Calibration constant address `CALDCO_16MHZ`. -/
def CALDCO_16MHZ : Nat := 0x10F8

/-- Calibration constant address `CALBC1_16MHZ`. -/
def CALBC1_16MHZ : Nat := 0x10F9

/-- Calibration constant address `CALDCO_12MHZ`. -/
def CALDCO_12MHZ : Nat := 0x10FA

/-- Calibration constant address `CALBC1_12MHZ`. -/
def CALBC1_12MHZ : Nat := 0x10FB

/-- Calibration constant address `CALDCO_8MHZ`. -/
def CALDCO_8MHZ : Nat := 0x10FC

/-- Calibration constant address `CALBC1_8MHZ`. -/
def CALBC1_8MHZ : Nat := 0x10FD

/-- Calibration constant address `CALDCO_1MHZ`. -/
def CALDCO_1MHZ : Nat := 0x10FE

/-- Calibration constant address `CALBC1_1MHZ`. -/
def CALBC1_1MHZ : Nat := 0x10FF

/-- ASCII lower-casing of one character, as C `tolower` does for letters. -/
def lowerChar (c : Char) : Char :=
  if 65 ≤ c.toNat ∧ c.toNat ≤ 90 then Char.ofNat (c.toNat + 32) else c

/-- C `!strcasecmp(a, b)`: case-insensitive string equality. -/
def str_ieq (a b : String) : Bool := a.data.map lowerChar == b.data.map lowerChar

/-- Case-insensitive equality on character lists (for C `strcasecmp` applied
to a suffix of a scanned string). -/
def str_ieq_l (a b : List Char) : Bool := a.map lowerChar == b.map lowerChar

/-- The `dcoclk` value computed by `calc_dcoclk` before the modulation
interpolation: `dco4_3_hz`-or-`dco7_3_hz` × `srsel^d_rsel` × `sdco^(dco-3)`.
This is the local variable `dcoclk` of the C function after the two `pow`
multiplications. -/
def dco_tap (clk : Clock) (dcoctl bcsctl1 : Nat) : Frac :=
  let dco : Nat := (dcoctl &&& 0xe0) >>> 5
  let base : Frac :=
    if clk.clock_type = ClockType.basic then Frac.ofInt clk.dco4_3_hz
    else Frac.ofInt clk.dco7_3_hz
  let d_rsel : Int :=
    if clk.clock_type = ClockType.basic then ((bcsctl1 &&& 0x7 : Nat) : Int) - 4
    else ((bcsctl1 &&& 0xf : Nat) : Int) - 7
  base * clk.srsel.zpow d_rsel * clk.sdco.zpow ((dco : Int) - 3)

/-- The harmonic-mean interpolation of `calc_dcoclk` between the tap
frequency `f` and the next tap frequency `f * s`, with modulation weight
`modv` out of 32: `32·f·fn / (modv·f + (32−modv)·fn)` where `fn = f·s`. -/
def dco_interp (f s : Frac) (modv : Nat) : Frac :=
  let fnext := f * s
  (Frac.ofInt 32 * f * fnext) /
    (Frac.ofInt modv * f + Frac.ofInt ((32 : Int) - (modv : Int)) * fnext)

/-- Function `calc_dcoclk(clk, dcoctl, bcsctl1)`: the DCO output frequency for the
given register bytes, truncated to an integer by the C `(int32_t)` cast.
`dco = (dcoctl & 0xe0) >> 5`, `mod = dcoctl & 0x1f`. -/
def calc_dcoclk (clk : Clock) (dcoctl bcsctl1 : Nat) : Int :=
  cIntOfFrac (dco_interp (dco_tap clk dcoctl bcsctl1) clk.sdco (dcoctl &&& 0x1f))

/-- Function `update_clock_frequencies`: recompute the four cached derived frequencies
from the oscillator configuration and the register bytes. -/
def update_clock_frequencies (clk : Clock) : Clock :=
  let dcoclk := calc_dcoclk clk clk.dcoctl clk.bcsctl1
  let lfxtclk : Int :=
    if clk.clock_type = ClockType.basicPlus ∧ clk.bcsctl3 &&& 0x30 = 0x20 then clk.vlo_hz
    else clk.lfxt1_hz
  let mclk : Int :=
    if clk.bcsctl2 &&& 0xc0 = 0x80 then (if 0 < clk.xt2_hz then clk.xt2_hz else lfxtclk)
    else if clk.bcsctl2 &&& 0xc0 = 0xc0 then lfxtclk
    else dcoclk
  let smclk : Int :=
    if clk.bcsctl2 &&& 0x08 ≠ 0 then (if 0 < clk.xt2_hz then clk.xt2_hz else lfxtclk)
    else dcoclk
  { clk with
    dco_hz := dcoclk
    mclk_hz := asr mclk ((clk.bcsctl2 &&& 0x30) >>> 4)
    smclk_hz := asr smclk ((clk.bcsctl2 &&& 0x06) >>> 1)
    aclk_hz := asr lfxtclk ((clk.bcsctl1 &&& 0x30) >>> 4) }

/-- Function `clock_reset`: zero the domain accumulators, restore the family-specific
power-on register defaults and recompute the derived frequencies. -/
def clock_reset (clk : Clock) : Clock :=
  let clk := { clk with aclk_counter := 0, smclk_counter := 0, dcoctl := 0x60, bcsctl2 := 0x00 }
  let clk := if clk.clock_type = ClockType.basic then { clk with bcsctl1 := 0x84 } else clk
  let clk :=
    if clk.clock_type = ClockType.basicPlus then { clk with bcsctl1 := 0x87, bcsctl3 := 0x03 }
    else clk
  update_clock_frequencies clk

/-- The zero-filled `struct clock` produced by `clock_create` after `memset`
and the family-specific default assignments.  The C `double` literals are
embedded as exact decimals. -/
def init_clock (t : ClockType) : Clock where
  clock_type := t
  lfxt1_hz := 0
  xt2_hz := 0
  vlo_hz := if t = ClockType.basicPlus then 12000 else 0
  dco4_3_hz := if t = ClockType.basic then 750000 else 0
  dco7_3_hz := if t = ClockType.basicPlus then 1140000 else 0
  srsel := if t = ClockType.basic then ⟨33, 20⟩ else ⟨27, 20⟩
  sdco := if t = ClockType.basic then ⟨28, 25⟩ else ⟨27, 25⟩
  dco_hz := 0
  mclk_hz := 0
  smclk_hz := 0
  aclk_hz := 0
  aclk_counter := 0
  smclk_counter := 0
  dcoctl := 0
  bcsctl1 := 0
  bcsctl2 := 0
  bcsctl3 := 0

/-- Function `clock_create`: parse the single case-insensitive family token (`"basic"`
or `"basic+"`); `none` embeds the C `NULL` failure result (missing or unknown
token; the allocation-failure path has no counterpart in the embedding). -/
def clock_create (arg : Option String) : Option Clock :=
  match arg with
  | none => none
  | some s =>
    if str_ieq s "basic" then some (init_clock ClockType.basic)
    else if str_ieq s "basic+" then some (init_clock ClockType.basicPlus)
    else none

/-- Result of a `config` call; the error constructors record which
diagnostic the C code prints, and carry the datum echoed in it. -/
inductive CResult where
  | ok
  | err_noarg
  | err_freq (s : String)
  | err_value
  | err_low (v : Frac)
  | err_high (v : Frac)
  | err_param (s : String)
deriving DecidableEq

/-- Function `multiply_power_of_10(val, pow)`: the C loop multiplies by 10 `pow` times
when positive and floor-divides by 10 `-pow` times when negative; repeated
flooring division by 10 equals one flooring division by `10^(-pow)`. -/
def multiply_power_of_10 (val : Nat) (p : Int) : Nat :=
  if 0 ≤ p then val * 10 ^ p.toNat else val / 10 ^ (-p).toNat

/-- The unit-suffix dispatch of `config_frequency` on the characters left
after the digit scan: no suffix or `"Hz"` keeps the scale `0 - frac`,
`"kHz"` gives `3 - frac`, `"MHz"` gives `6 - frac`, anything else is the
"illegal frequency" error (`none`). -/
def freq_scale (rest : List Char) (frac : Int) : Option Int :=
  if rest = [] ∨ str_ieq_l rest "Hz".data then some (0 - frac)
  else if str_ieq_l rest "kHz".data then some (3 - frac)
  else if str_ieq_l rest "MHz".data then some (6 - frac)
  else none

/-- The scanning loop of `config_frequency`: consume digits (accumulating
`freq` and counting fractional digits once a `'.'` has been seen), consume at
most one `'.'`, stop at the first other character.  Returns the accumulated
value, the fraction-digit state (`-1` when no `'.'` was seen) and the
remaining characters. -/
def parse_freq_digits : List Char → Nat → Int → Nat × Int × List Char
  | [], freq, frac => (freq, frac, [])
  | c :: cs, freq, frac =>
    if c.isDigit then
      parse_freq_digits cs (freq * 10 + (c.toNat - 48)) (if 0 ≤ frac then frac + 1 else frac)
    else if c = '.' ∧ frac < 0 then
      parse_freq_digits cs freq 0
    else (freq, frac, c :: cs)

/-- Function `config_frequency(clk, hz, arg_text)`: parse a frequency token and store
it through `set` (the C passes a pointer to the targeted `int32_t` field),
then recompute the derived frequencies.  Every error path returns before the
store. -/
def config_frequency (clk : Clock) (set : Clock → Int → Clock) (arg : Option String) :
    CResult × Clock :=
  match arg with
  | none => (CResult.err_noarg, clk)
  | some freq_text =>
    let p := parse_freq_digits freq_text.data 0 (-1)
    let freq := p.1
    let frac : Int := if p.2.1 < 0 then 0 else p.2.1
    let rest := p.2.2
    match freq_scale rest frac with
    | none => (CResult.err_freq freq_text, clk)
    | some sc =>
      (CResult.ok, update_clock_frequencies (set clk (multiply_power_of_10 freq sc)))

/-- Digit scanner for the ratio token: accumulated value, number of digits
consumed, remaining characters. -/
def take_digits : List Char → Nat → Nat → Nat × Nat × List Char
  | [], v, k => (v, k, [])
  | c :: cs, v, k =>
    if c.isDigit then take_digits cs (v * 10 + (c.toNat - 48)) (k + 1)
    else (v, k, c :: cs)

/-- The ratio token of `config_ratio`.  The C code parses with `strtod`; per
the specified ratio-token grammar the token is a plain decimal
(`digits? ('.' digits?)?`, at least one digit), which is parsed here exactly
into a fraction whose denominator is a positive power of ten. -/
def parse_decimal (s : String) : Option Frac :=
  let p := take_digits s.data 0 0
  match p.2.2 with
  | [] => if p.2.1 = 0 then none else some ⟨(p.1 : Int), 1⟩
  | '.' :: r2 =>
    let q := take_digits r2 0 0
    if q.2.2 = [] ∧ p.2.1 + q.2.1 ≠ 0 then
      some ⟨(p.1 : Int) * 10 ^ q.2.1 + (q.1 : Int), (10 : Int) ^ q.2.1⟩
    else none
  | _ => none

/-- Function `config_ratio(clk, data, arg_text)`: parse the ratio token, reject values
`≤ 1.0` (diagnostic "must be greater than 1: value") or `≥ 1.8` (diagnostic
"must be less than 1.8: value"), store through `set` and recompute on
success.  The comparisons against 1.0 and 1.8 are cross-multiplied exact
comparisons, valid because `parse_decimal` always returns a positive
denominator. -/
def config_ratio (clk : Clock) (set : Clock → Frac → Clock) (arg : Option String) :
    CResult × Clock :=
  match arg with
  | none => (CResult.err_noarg, clk)
  | some s =>
    match parse_decimal s with
    | none => (CResult.err_value, clk)
    | some v =>
      if v.n ≤ v.d then (CResult.err_low v, clk)
      else if 9 * v.d ≤ 5 * v.n then (CResult.err_high v, clk)
      else (CResult.ok, update_clock_frequencies (set clk v))

/-- Function `clock_config(dev, param, arg_text)`: case-insensitive key dispatch in
the order of the C function; `dco4_3` is recognized only on Basic, `vlo` and
`dco7_3` only on Basic+; an unmatched key is the "unknown parameter"
error. -/
def clock_config (clk : Clock) (param : String) (arg : Option String) : CResult × Clock :=
  if str_ieq param "lfxt1" then
    config_frequency clk (fun c v => { c with lfxt1_hz := v }) arg
  else if str_ieq param "xt2" then
    config_frequency clk (fun c v => { c with xt2_hz := v }) arg
  else if clk.clock_type = ClockType.basic ∧ str_ieq param "dco4_3" = true then
    config_frequency clk (fun c v => { c with dco4_3_hz := v }) arg
  else if clk.clock_type = ClockType.basicPlus ∧ str_ieq param "vlo" = true then
    config_frequency clk (fun c v => { c with vlo_hz := v }) arg
  else if clk.clock_type = ClockType.basicPlus ∧ str_ieq param "dco7_3" = true then
    config_frequency clk (fun c v => { c with dco7_3_hz := v }) arg
  else if str_ieq param "srsel" then
    config_ratio clk (fun c v => { c with srsel := v }) arg
  else if str_ieq param "sdco" then
    config_ratio clk (fun c v => { c with sdco := v }) arg
  else (CResult.err_param param, clk)

/-- Function `bcsctl3_write(clk, data)`: the C function only runs `check_crystal`
validation of both external-crystal mode fields of `data` and emits advisory
diagnostics through `printc_dbg`; it contains no assignment whatsoever — in
particular it never stores `data` into `clk->bcsctl3` — so its effect on the
device state is the identity. -/
def bcsctl3_write (clk : Clock) (data : Nat) : Clock :=
  let _ := data
  clk

/-- Function `clock_write_b(dev, addr, data)`: returns `(true, clk')` for a handled
write (C return value 0) and `(false, clk)` for `NotMine` (C return value 1).
Cases in the order of the C `switch`; `BCSCTL3` is handled only on Basic+ and
its handler validates and recomputes without storing the byte. -/
def clock_write_b (clk : Clock) (addr : Nat) (data : Nat) : Bool × Clock :=
  if addr = BCSCTL3 then
    if clk.clock_type = ClockType.basicPlus then
      (true, update_clock_frequencies (bcsctl3_write clk data))
    else (false, clk)
  else if addr = DCOCTL then (true, update_clock_frequencies { clk with dcoctl := data })
  else if addr = BCSCTL1 then (true, update_clock_frequencies { clk with bcsctl1 := data })
  else if addr = BCSCTL2 then (true, update_clock_frequencies { clk with bcsctl2 := data })
  else (false, clk)

/-- The successive-approximation loop of `calc_calibrate_dco`.  The result
carries, besides the C locals `best_cal` and `min_delta`, the ghost list of
the candidate words evaluated by the loop (most recent last), used only to
state properties; the C loop body is otherwise transcribed literally:
evaluate `cal`, update the best-seen candidate on strict improvement, clear
`bit` from `cal` when the evaluation overshoots the target, then shift `bit`
right and tentatively set the next bit.  `fuel` strictly exceeds the number
of iterations (the loop runs once per binary digit of the initial `bit`). -/
def calib_loop (clk : Clock) (target : Int) :
    Nat → Nat → Nat → Int → Nat → Nat × Int × List Nat
  | 0, _cal, _bit, min_delta, best_cal => (best_cal, min_delta, [])
  | fuel + 1, cal, bit, min_delta, best_cal =>
    if bit = 0 then (best_cal, min_delta, [])
    else
      let delta := calc_dcoclk clk (cal &&& 0xff) (cal >>> 8) - target
      let adelta : Int := (delta.natAbs : Int)
      let min2 := if adelta < min_delta then adelta else min_delta
      let best2 := if adelta < min_delta then cal else best_cal
      let cal2 := if 0 < delta then cal &&& (65535 ^^^ bit) else cal
      let bit2 := bit / 2
      let r := calib_loop clk target fuel (cal2 ||| bit2) bit2 min2 best2
      (r.1, r.2.1, cal :: r.2.2)

/-- The whole search of `calc_calibrate_dco` expressed on the combined
16-bit word `cal` (high byte: range/`bcsctl1` bits, low byte: `dcoctl`):
`cal` and `bit` start at `rsel_max << 8` (`rsel_max` is `0x4` on Basic and
`0x8` on Basic+), `min_delta` at `INT32_MAX`, `best_cal` at `cal`.  Fuel 16
strictly exceeds the 11 (Basic) or 12 (Basic+) iterations the loop makes. -/
def solve_calibration (clk : Clock) (target : Int) : Nat × Int × List Nat :=
  let rsel_max : Nat := if clk.clock_type = ClockType.basic then 0x4 else 0x8
  let cal := rsel_max <<< 8
  calib_loop clk target 16 cal cal 2147483647 cal

/-- Function `calc_calibrate_dco(clk, addr, target_dco)`: run the search and return
the `uint8_t`-truncated low byte of the best word for an even address
(`CALDCO_*`) and its high byte for an odd address (`CALBC1_*`). -/
def calc_calibrate_dco (clk : Clock) (addr : Nat) (target : Int) : Nat :=
  let best := (solve_calibration clk target).1
  if addr % 2 = 0 then best &&& 0xff else (best >>> 8) &&& 0xff

/-- Absolute error of a candidate word `c` against `target`: the C
`abs(calc_dcoclk(clk, cal & 0xff, cal >> 8) - target)`. -/
def dco_err (clk : Clock) (target : Int) (c : Nat) : Int :=
  ((calc_dcoclk clk (c &&& 0xff) (c >>> 8) - target).natAbs : Int)

/-- Function `clock_read_b(dev, addr, data)`: `some byte` for a handled read (C return
value 0 with `*data` set), `none` for `NotMine` (C return value 1).  The C
function stores nothing to the device state on any path. -/
def clock_read_b (clk : Clock) (addr : Nat) : Option Nat :=
  if addr = DCOCTL then some clk.dcoctl
  else if addr = BCSCTL1 then some clk.bcsctl1
  else if addr = BCSCTL2 then some clk.bcsctl2
  else if clk.clock_type = ClockType.basicPlus then
    if addr = BCSCTL3 then some clk.bcsctl3
    else if addr = CALDCO_16MHZ ∨ addr = CALBC1_16MHZ then
      some (calc_calibrate_dco clk addr 16000000)
    else if addr = CALDCO_12MHZ ∨ addr = CALBC1_12MHZ then
      some (calc_calibrate_dco clk addr 12000000)
    else if addr = CALDCO_8MHZ ∨ addr = CALBC1_8MHZ then
      some (calc_calibrate_dco clk addr 8000000)
    else if addr = CALDCO_1MHZ ∨ addr = CALBC1_1MHZ then
      some (calc_calibrate_dco clk addr 1000000)
    else none
  else none

/-- Function `clock_step(dev, status, clocks)`: accumulate
`duration = clocks[SIMIO_MCLK] * mclk_hz` into both domain remainder
counters, write each domain's quotient into its slot of the caller record and
keep the remainder (`/` and `%` on C ints truncate toward zero; the
`SIMIO_MCLK` slot is read but never written). -/
def clock_step (clk : Clock) (clocks : Clocks) : Clock × Clocks :=
  let duration := clocks.mclk * clk.mclk_hz
  let ac := clk.aclk_counter + duration
  let sc := clk.smclk_counter + duration
  ({ clk with
      aclk_counter := Int.tmod ac clk.aclk_hz
      smclk_counter := Int.tmod sc clk.smclk_hz },
   { clocks with
      aclk := Int.tdiv ac clk.aclk_hz
      smclk := Int.tdiv sc clk.smclk_hz })

/-- The digit-emission loop of `to_frequency`: build the decimal digits of
`hz` least-significant first, writing a `'.'` before a digit once `digit` is
a positive multiple of 3 and the remaining magnitude has dropped below 1000;
continue while the remaining magnitude is positive and fewer than `cap`
characters have been emitted (the C bound `p < buf + len` after
`len -= 4`).  Returns the emitted characters (LSD first) and the digit
count.  `fuel` strictly exceeds the possible number of iterations
(each iteration emits at least one character, so at most `cap + 1` run). -/
def to_frequency_loop : Nat → Nat → Nat → Nat → Nat → List Char × Nat
  | fuel, hz, digit, emitted, cap =>
    let pre : List Char := if digit ≠ 0 ∧ digit % 3 = 0 ∧ hz < 1000 then ['.'] else []
    let c := Char.ofNat (hz % 10 + 48)
    let emitted2 := emitted + pre.length + 1
    let hz2 := hz / 10
    match fuel with
    | 0 => (pre ++ [c], digit + 1)
    | fuel + 1 =>
      if 0 < hz2 ∧ emitted2 < cap then
        let r := to_frequency_loop fuel hz2 (digit + 1) emitted2 cap
        (pre ++ c :: r.1, r.2)
      else (pre ++ [c], digit + 1)

/-- Function `suppress_suffix_zeroes(buf, end)`: strip trailing `'0'` characters (the
C pointer loop stops at the first non-`'0'` or after consuming the first
character), then strip one trailing `'.'` if it is now last. -/
def suppress_suffix_zeroes (s : List Char) : List Char :=
  match s.reverse.dropWhile (fun c => c = '0') with
  | [] => s.take 1
  | '.' :: rest => rest.reverse
  | rest => rest.reverse

/-- Function `to_frequency(hz, buf, len)`: render `hz` as a compact string — digits
built least-significant first with at most one `'.'` group separator,
reversed, trailing zeroes suppressed when more than 3 digits were emitted,
then the unit suffix: `M` for more than 6 digits, `k` for more than 3, and a
final `"Hz"`. -/
def to_frequency (hz : Nat) (len : Nat) : String :=
  let cap := len - 4
  let r := to_frequency_loop len hz 0 0 cap
  let s := r.1.reverse
  let digit := r.2
  let s2 := if 3 < digit then suppress_suffix_zeroes s else s
  let suffix : List Char := if 6 < digit then ['M'] else if 3 < digit then ['k'] else []
  String.mk (s2 ++ suffix ++ ['H', 'z'])

/-- A freshly created Basic device (`clock_create` with token "basic"). -/
def basic_clk : Clock := init_clock ClockType.basic

/-- A freshly created Basic+ device (`clock_create` with token "basic+"). -/
def plus_clk : Clock := init_clock ClockType.basicPlus

/-- The family-conditional set of mapped addresses: the three common register
addresses, plus on Basic+ the third register and the eight calibration
constants. -/
def clock_addrs (t : ClockType) : List Nat :=
  [DCOCTL, BCSCTL1, BCSCTL2] ++
    (if t = ClockType.basicPlus then
      [BCSCTL3, CALDCO_16MHZ, CALBC1_16MHZ, CALDCO_12MHZ, CALBC1_12MHZ,
       CALDCO_8MHZ, CALBC1_8MHZ, CALDCO_1MHZ, CALBC1_1MHZ]
    else [])

/-- Scenario state for the accumulator-invariant analysis: a Basic device
with a 32768 Hz LFXT1 crystal, reset. -/
def cx_clk0 : Clock := clock_reset ((clock_config basic_clk "lfxt1" (some "32768")).2)

/-- The scenario state after one `step` of one main-domain tick. -/
def cx_clk1 : Clock := (clock_step cx_clk0 ⟨1, 0, 0⟩).1

/-- The scenario state after subsequently configuring the LFXT1 crystal down
to 1 Hz. -/
def cx_clk2 : Clock := (clock_config cx_clk1 "lfxt1" (some "1")).2

@[simp] theorem Frac.mul_n (x y : Frac) : (x * y).n = x.n * y.n := rfl

@[simp] theorem Frac.mul_d (x y : Frac) : (x * y).d = x.d * y.d := rfl

@[simp] theorem Frac.add_n (x y : Frac) : (x + y).n = x.n * y.d + y.n * x.d := rfl

@[simp] theorem Frac.add_d (x y : Frac) : (x + y).d = x.d * y.d := rfl

@[simp] theorem Frac.div_n (x y : Frac) : (x / y).n = x.n * y.d := rfl

@[simp] theorem Frac.div_d (x y : Frac) : (x / y).d = x.d * y.n := rfl

@[simp] theorem Frac.ofInt_n (v : Int) : (Frac.ofInt v).n = v := rfl

@[simp] theorem Frac.ofInt_d (v : Int) : (Frac.ofInt v).d = 1 := rfl

/-- Truncating division is invariant under scaling numerator and denominator
by a common nonzero factor (the `(int32_t)` cast of a real quotient depends
only on the quotient). -/
theorem mul_tdiv_mul_cancel (k a b : Int) (hk : k ≠ 0) : (k * a).tdiv (k * b) = a.tdiv b := by
  obtain ⟨j, rfl | rfl⟩ := k.eq_nat_or_neg
  all_goals obtain ⟨m, rfl | rfl⟩ := a.eq_nat_or_neg
  all_goals obtain ⟨p, rfl | rfl⟩ := b.eq_nat_or_neg
  all_goals
    simp only [Int.neg_mul, Int.mul_neg, Int.neg_tdiv, Int.tdiv_neg, neg_neg, ne_eq,
      neg_eq_zero, Int.natCast_eq_zero] at *
  all_goals rw [Int.tdiv_eq_ediv (by positivity) (by positivity),
    Int.tdiv_eq_ediv (by positivity) (by positivity),
    Int.mul_ediv_mul_of_pos _ _ (by positivity : (0 : Int) < (j : Int))]

/-- A fraction with nonzero rational value has nonzero numerator and
denominator. -/
theorem Frac.comp_ne_zero (x : Frac) (h : x.val ≠ 0) : x.n ≠ 0 ∧ x.d ≠ 0 := by
  constructor <;> intro h0 <;> apply h <;> simp [Frac.val, h0]

/-- For a positive denominator, `val ≤ 1` is the cross-multiplied comparison
used by `config_ratio` for the lower ratio bound. -/
theorem Frac.val_le_one_iff (x : Frac) (hd : 0 < x.d) : x.val ≤ 1 ↔ x.n ≤ x.d := by
  rw [Frac.val, div_le_one (by exact_mod_cast hd)]
  exact_mod_cast Iff.rfl

/-- For a positive denominator, `9/5 ≤ val` is the cross-multiplied
comparison used by `config_ratio` for the upper ratio bound. -/
theorem Frac.nine_fifths_le_val_iff (x : Frac) (hd : 0 < x.d) :
    (9 / 5 : ℚ) ≤ x.val ↔ 9 * x.d ≤ 5 * x.n := by
  rw [Frac.val, div_le_div_iff₀ (by norm_num) (by exact_mod_cast hd)]
  constructor <;> intro h
  · have h2 : (9 * x.d : ℚ) ≤ (5 * x.n : ℚ) := by linarith
    exact_mod_cast h2
  · have h2 : (9 * (x.d : ℚ)) ≤ 5 * (x.n : ℚ) := by exact_mod_cast h
    linarith

/-- Parsing with `parse_decimal` always produces a positive denominator (1 or a power of
ten). -/
theorem parse_decimal_den_pos (s : String) (v : Frac) (hp : parse_decimal s = some v) :
    0 < v.d := by
  simp only [parse_decimal] at hp
  split at hp
  · split at hp
    · exact absurd hp (by simp)
    · cases hp; exact one_pos
  · split at hp
    · cases hp; positivity
    · exact absurd hp (by simp)
  · exact absurd hp (by simp)

/-- The calibration loop returns immediately once `bit` reaches zero,
regardless of remaining fuel. -/
theorem calib_loop_bit_zero (clk : Clock) (target : Int) (fuel cal : Nat) (md : Int)
    (best : Nat) : calib_loop clk target fuel cal 0 md best = (best, md, []) := by
  cases fuel <;> rfl

/-- One unfolding of the calibration loop for a nonzero `bit`, with the
evaluated error expressed through `dco_err`. -/
theorem calib_loop_succ (clk : Clock) (target : Int) (fuel cal bit : Nat) (md : Int)
    (best : Nat) (hbit : bit ≠ 0) :
    calib_loop clk target (fuel + 1) cal bit md best =
      ((calib_loop clk target fuel
          ((if 0 < calc_dcoclk clk (cal &&& 0xff) (cal >>> 8) - target then
              cal &&& (65535 ^^^ bit) else cal) ||| bit / 2)
          (bit / 2)
          (if dco_err clk target cal < md then dco_err clk target cal else md)
          (if dco_err clk target cal < md then cal else best)).1,
        (calib_loop clk target fuel
          ((if 0 < calc_dcoclk clk (cal &&& 0xff) (cal >>> 8) - target then
              cal &&& (65535 ^^^ bit) else cal) ||| bit / 2)
          (bit / 2)
          (if dco_err clk target cal < md then dco_err clk target cal else md)
          (if dco_err clk target cal < md then cal else best)).2.1,
        cal ::
          (calib_loop clk target fuel
            ((if 0 < calc_dcoclk clk (cal &&& 0xff) (cal >>> 8) - target then
                cal &&& (65535 ^^^ bit) else cal) ||| bit / 2)
            (bit / 2)
            (if dco_err clk target cal < md then dco_err clk target cal else md)
            (if dco_err clk target cal < md then cal else best)).2.2) := by
  conv_lhs => rw [calib_loop]
  rw [if_neg hbit]
  rfl

/-- Invariant of the calibration loop: starting from `bit = 2^k` with more
than `k` units of fuel, the loop evaluates exactly `k + 1` candidates; the
returned `min_delta` never exceeds its initial value and is a lower bound of
the error of every evaluated candidate; and the returned `best_cal` is either
the initial one (with `min_delta` unchanged) or an evaluated candidate whose
error is exactly the returned `min_delta`. -/
theorem calib_loop_spec (clk : Clock) (target : Int) :
    ∀ (k fuel : Nat), k < fuel → ∀ (cal : Nat) (md : Int) (best b : Nat) (m : Int)
      (tr : List Nat), calib_loop clk target fuel cal (2 ^ k) md best = (b, m, tr) →
      tr.length = k + 1 ∧ m ≤ md ∧ (∀ c ∈ tr, m ≤ dco_err clk target c)
        ∧ ((b = best ∧ m = md) ∨ (b ∈ tr ∧ m = dco_err clk target b)) := by
  intro k
  induction k with
  | zero =>
    intro fuel hf cal md best b m tr hEq
    match fuel, hf with
    | f + 1, _ =>
      rw [pow_zero, calib_loop_succ clk target f cal 1 md best one_ne_zero] at hEq
      have h12 : (1 : Nat) / 2 = 0 := rfl
      rw [h12, calib_loop_bit_zero] at hEq
      by_cases hlt : dco_err clk target cal < md
      · simp only [if_pos hlt] at hEq
        injection hEq with h1 h23
        injection h23 with h2 h3
        subst h1 h2 h3
        refine ⟨rfl, le_of_lt hlt, ?_, Or.inr ⟨List.mem_singleton_self _, rfl⟩⟩
        intro c hc
        rw [List.mem_singleton] at hc
        subst hc
        exact le_refl _
      · simp only [if_neg hlt] at hEq
        injection hEq with h1 h23
        injection h23 with h2 h3
        subst h1 h2 h3
        refine ⟨rfl, le_refl md, ?_, Or.inl ⟨rfl, rfl⟩⟩
        intro c hc
        rw [List.mem_singleton] at hc
        subst hc
        exact le_of_not_lt hlt
  | succ k ih =>
    intro fuel hf cal md best b m tr hEq
    match fuel, hf with
    | f + 1, hf =>
      have hk : k < f := by omega
      have hbit : (2 : Nat) ^ (k + 1) ≠ 0 := by positivity
      have hb2 : (2 : Nat) ^ (k + 1) / 2 = 2 ^ k := by
        rw [pow_succ, Nat.mul_div_cancel _ (by norm_num)]
      rw [calib_loop_succ clk target f cal (2 ^ (k + 1)) md best hbit, hb2] at hEq
      by_cases hlt : dco_err clk target cal < md
      · simp only [if_pos hlt] at hEq
        rcases hr : calib_loop clk target f
            ((if 0 < calc_dcoclk clk (cal &&& 0xff) (cal >>> 8) - target then
                cal &&& (65535 ^^^ 2 ^ (k + 1)) else cal) ||| 2 ^ k)
            (2 ^ k) (dco_err clk target cal) cal with ⟨b', m', tr'⟩
        rw [hr] at hEq
        injection hEq with h1 h23
        injection h23 with h2 h3
        subst h1 h2 h3
        obtain ⟨hlen, hle, hlb, hdisj⟩ := ih f hk _ _ _ b' m' tr' hr
        refine ⟨by simp [hlen], le_trans hle (le_of_lt hlt), ?_, ?_⟩
        · intro c hc
          rcases List.mem_cons.mp hc with rfl | hc
          · exact hle
          · exact hlb c hc
        · rcases hdisj with ⟨hb', hm'⟩ | ⟨hb', hm'⟩
          · subst hb'
            exact Or.inr ⟨List.mem_cons_self _ _, hm'⟩
          · exact Or.inr ⟨List.mem_cons_of_mem _ hb', hm'⟩
      · simp only [if_neg hlt] at hEq
        rcases hr : calib_loop clk target f
            ((if 0 < calc_dcoclk clk (cal &&& 0xff) (cal >>> 8) - target then
                cal &&& (65535 ^^^ 2 ^ (k + 1)) else cal) ||| 2 ^ k)
            (2 ^ k) md best with ⟨b', m', tr'⟩
        rw [hr] at hEq
        injection hEq with h1 h23
        injection h23 with h2 h3
        subst h1 h2 h3
        obtain ⟨hlen, hle, hlb, hdisj⟩ := ih f hk _ _ _ b' m' tr' hr
        refine ⟨by simp [hlen], hle, ?_, ?_⟩
        · intro c hc
          rcases List.mem_cons.mp hc with rfl | hc
          · exact le_trans hle (le_of_not_lt hlt)
          · exact hlb c hc
        · rcases hdisj with ⟨hb', hm'⟩ | ⟨hb', hm'⟩
          · exact Or.inl ⟨hb', hm'⟩
          · exact Or.inr ⟨List.mem_cons_of_mem _ hb', hm'⟩

/-- Claim C1 (status: code bug in the source).  The claim states that every
directly stored register address round-trips (`read` after a handled `write`
returns the written byte), and that a write to the Basic+ third register
(`BCSCTL3`) validates, stores the byte and recomputes.  In the code,
`clock_write_b` handles a `BCSCTL3` write on Basic+ (it validates via
`bcsctl3_write` and recomputes) but never stores the byte: after reset
(`bcsctl3 = 0x03`), writing `0x20` is reported handled, yet reading the
register back still returns `0x03`, not `0x20`. -/
theorem spec_C1 :
    (clock_write_b (clock_reset plus_clk) BCSCTL3 0x20).1 = true
    ∧ clock_read_b (clock_write_b (clock_reset plus_clk) BCSCTL3 0x20).2 BCSCTL3 = some 0x03
    ∧ (clock_reset plus_clk).bcsctl3 = 0x03
    ∧ (0x03 : Nat) ≠ 0x20 := by
  refine ⟨by decide, by decide, by decide, by decide⟩

/-- Claim C2, counterexample to the step count: on a Basic device the
calibration search evaluates 11 candidates (one per bit from the range
field's most significant bit `0x4 << 8` down to modulation bit 0), not 8. -/
theorem spec_C2_cx :
    (solve_calibration basic_clk 1000000).2.2.length = 11
    ∧ ¬ ((solve_calibration basic_clk 1000000).2.2.length = 8) := by
  refine ⟨by decide, by decide⟩

/-- Claim C2 (amended): for every target frequency the calibration solver is
a total deterministic function that completes in exactly 11 successive-
approximation steps on Basic and 12 on Basic+ (one per bit of the combined
range:tap:modulation word from the range MSB down), and — provided every
evaluated error is below the `INT32_MAX` initial `min_delta` — returns a
candidate that was evaluated during the search and whose absolute error is
minimal among all evaluated candidates (not necessarily the final bit
pattern). -/
theorem spec_C2 (clk : Clock) (target : Int)
    (hb : ∀ c ∈ (solve_calibration clk target).2.2, dco_err clk target c < 2147483647) :
    ((solve_calibration clk target).2.2.length =
      if clk.clock_type = ClockType.basic then 11 else 12)
    ∧ (solve_calibration clk target).1 ∈ (solve_calibration clk target).2.2
    ∧ ∀ c ∈ (solve_calibration clk target).2.2,
        dco_err clk target ((solve_calibration clk target).1) ≤ dco_err clk target c := by
  rcases hr : solve_calibration clk target with ⟨b, m, tr⟩
  rw [hr] at hb
  simp only [hr]
  have main : tr.length = (if clk.clock_type = ClockType.basic then 11 else 12)
      ∧ m ≤ 2147483647 ∧ (∀ c ∈ tr, m ≤ dco_err clk target c)
      ∧ (m = 2147483647 ∨ (b ∈ tr ∧ m = dco_err clk target b)) := by
    by_cases hct : clk.clock_type = ClockType.basic
    · rw [solve_calibration, if_pos hct] at hr
      have h2 : (0x4 : Nat) <<< 8 = 2 ^ 10 := by decide
      rw [h2] at hr
      obtain ⟨h1', h2', h3', h4'⟩ := calib_loop_spec clk target 10 16 (by omega) _ _ _ b m tr hr
      rw [if_pos hct]
      exact ⟨by omega, h2', h3', h4'.imp (fun h => h.2) id⟩
    · rw [solve_calibration, if_neg hct] at hr
      have h2 : (0x8 : Nat) <<< 8 = 2 ^ 11 := by decide
      rw [h2] at hr
      obtain ⟨h1', h2', h3', h4'⟩ := calib_loop_spec clk target 11 16 (by omega) _ _ _ b m tr hr
      rw [if_neg hct]
      exact ⟨by omega, h2', h3', h4'.imp (fun h => h.2) id⟩
  obtain ⟨hlen, hmle, hlb, hdisj⟩ := main
  have hmem : b ∈ tr ∧ m = dco_err clk target b := by
    rcases hdisj with hmv | h
    · exfalso
      have hpos : 0 < tr.length := by
        rw [hlen]; split <;> omega
      obtain ⟨c, hc⟩ := List.exists_mem_of_length_pos hpos
      have := hlb c hc
      have := hb c hc
      omega
    · exact h
  refine ⟨hlen, hmem.1, ?_⟩
  intro c hc
  calc dco_err clk target b = m := hmem.2.symm
    _ ≤ dco_err clk target c := hlb c hc

/-- Witness for claim C2's theorem at a concrete input: a Basic device and a
1 MHz target, for which every evaluated error is far below `INT32_MAX`. -/
theorem spec_C2_wit :
    (solve_calibration basic_clk 1000000).1 ∈ (solve_calibration basic_clk 1000000).2.2 :=
  (spec_C2 basic_clk 1000000 (by decide)).2.1

/-- Claim C3: a `clock_step` call adds `elapsed_main_ticks × main_hz` to each
of the sub-main and auxiliary remainder accumulators, writes the flooring
quotient by the domain frequency into that domain's slot of the caller
record, keeps the remainder in the accumulator, and leaves the main slot
unmodified.  Hypotheses: the domain frequencies are positive (required by the
code, which divides by them), the accumulators are nonnegative (their
invariant) and the elapsed work is nonnegative — under these, the C
truncating `/` and `%` coincide with the flooring quotient and remainder of
the claim. -/
theorem spec_C3 (clk : Clock) (clocks : Clocks)
    (ha : 0 < clk.aclk_hz) (hs : 0 < clk.smclk_hz)
    (hac : 0 ≤ clk.aclk_counter) (hsc : 0 ≤ clk.smclk_counter)
    (hd : 0 ≤ clocks.mclk * clk.mclk_hz) :
    (clock_step clk clocks).2.mclk = clocks.mclk
    ∧ (clock_step clk clocks).2.aclk =
        (clk.aclk_counter + clocks.mclk * clk.mclk_hz) / clk.aclk_hz
    ∧ (clock_step clk clocks).2.smclk =
        (clk.smclk_counter + clocks.mclk * clk.mclk_hz) / clk.smclk_hz
    ∧ (clock_step clk clocks).1.aclk_counter =
        (clk.aclk_counter + clocks.mclk * clk.mclk_hz) % clk.aclk_hz
    ∧ (clock_step clk clocks).1.smclk_counter =
        (clk.smclk_counter + clocks.mclk * clk.mclk_hz) % clk.smclk_hz := by
  refine ⟨rfl, ?_, ?_, ?_, ?_⟩
  · exact Int.tdiv_eq_ediv (add_nonneg hac hd) (le_of_lt ha)
  · exact Int.tdiv_eq_ediv (add_nonneg hsc hd) (le_of_lt hs)
  · exact Int.tmod_eq_emod (add_nonneg hac hd) (le_of_lt ha)
  · exact Int.tmod_eq_emod (add_nonneg hsc hd) (le_of_lt hs)

/-- Witness for claim C3's theorem: one tick on a reset Basic device with a
32768 Hz crystal (`cx_clk0`). -/
theorem spec_C3_wit :
    (clock_step cx_clk0 ⟨1, 0, 0⟩).2.aclk =
      (cx_clk0.aclk_counter + (Clocks.mk 1 0 0).mclk * cx_clk0.mclk_hz) / cx_clk0.aclk_hz :=
  (spec_C3 cx_clk0 ⟨1, 0, 0⟩ (by decide) (by decide) (by decide) (by decide) (by decide)).2.1

/-- Claim C4, counterexample to "the invariant holds at all times /
is preserved by every operation": on a reset Basic device with a 32768 Hz
crystal, one `step` leaves the auxiliary remainder at 29104; a subsequent
`config("lfxt1", "1")` call (an operation of the device) lowers the auxiliary
frequency to 1 Hz without touching the accumulator, so afterwards all domain
frequencies are positive yet `aclk_counter < aclk_hz` fails. -/
theorem spec_C4_cx :
    0 < cx_clk2.aclk_hz ∧ 0 < cx_clk2.smclk_hz ∧ 0 < cx_clk2.mclk_hz
    ∧ cx_clk2.aclk_counter = 29104
    ∧ ¬ (cx_clk2.aclk_counter < cx_clk2.aclk_hz) := by
  refine ⟨by decide, by decide, by decide, by decide, by decide⟩

/-- Claim C4 (amended): the two domain accumulators are zero after device
reset, and the invariant `0 ≤ remainder < domain frequency` is preserved by
every `step` call on a state with positive domain frequencies, nonnegative
accumulators and nonnegative elapsed work.  (It is not preserved by every
operation: an operation that lowers a domain frequency below the current
remainder — see the counterexample — breaks it.) -/
theorem spec_C4 (clk : Clock) (clocks : Clocks)
    (ha : 0 < clk.aclk_hz) (hs : 0 < clk.smclk_hz)
    (hac : 0 ≤ clk.aclk_counter) (hsc : 0 ≤ clk.smclk_counter)
    (hd : 0 ≤ clocks.mclk * clk.mclk_hz) :
    ((clock_reset clk).aclk_counter = 0 ∧ (clock_reset clk).smclk_counter = 0)
    ∧ (0 ≤ (clock_step clk clocks).1.aclk_counter
        ∧ (clock_step clk clocks).1.aclk_counter < clk.aclk_hz)
    ∧ (0 ≤ (clock_step clk clocks).1.smclk_counter
        ∧ (clock_step clk clocks).1.smclk_counter < clk.smclk_hz) := by
  refine ⟨?_, ?_, ?_⟩
  · simp only [clock_reset, update_clock_frequencies]
    split_ifs <;> exact ⟨rfl, rfl⟩
  · show 0 ≤ Int.tmod _ _ ∧ Int.tmod _ _ < _
    rw [Int.tmod_eq_emod (add_nonneg hac hd) (le_of_lt ha)]
    exact ⟨Int.emod_nonneg _ (ne_of_gt ha), Int.emod_lt_of_pos _ ha⟩
  · show 0 ≤ Int.tmod _ _ ∧ Int.tmod _ _ < _
    rw [Int.tmod_eq_emod (add_nonneg hsc hd) (le_of_lt hs)]
    exact ⟨Int.emod_nonneg _ (ne_of_gt hs), Int.emod_lt_of_pos _ hs⟩

/-- Witness for claim C4's theorem: the reset scenario device and one tick. -/
theorem spec_C4_wit :
    (clock_reset cx_clk0).aclk_counter = 0
    ∧ 0 ≤ (clock_step cx_clk0 ⟨1, 0, 0⟩).1.aclk_counter :=
  ⟨(spec_C4 cx_clk0 ⟨1, 0, 0⟩ (by decide) (by decide) (by decide) (by decide)
      (by decide)).1.1,
   (spec_C4 cx_clk0 ⟨1, 0, 0⟩ (by decide) (by decide) (by decide) (by decide)
      (by decide)).2.1.1⟩

/-- Claim C6: after `clock_reset` the register bytes equal the family
power-on defaults — Basic: `DCOCTL = 0x60`, `BCSCTL1 = 0x84`; Basic+:
`DCOCTL = 0x60`, `BCSCTL2 = 0x00`, `BCSCTL1 = 0x87`, `BCSCTL3 = 0x03`. -/
theorem spec_C6 (clk : Clock) :
    (clk.clock_type = ClockType.basic →
      (clock_reset clk).dcoctl = 0x60 ∧ (clock_reset clk).bcsctl1 = 0x84
        ∧ (clock_reset clk).bcsctl2 = 0x00)
    ∧ (clk.clock_type = ClockType.basicPlus →
      (clock_reset clk).dcoctl = 0x60 ∧ (clock_reset clk).bcsctl2 = 0x00
        ∧ (clock_reset clk).bcsctl1 = 0x87 ∧ (clock_reset clk).bcsctl3 = 0x03) := by
  constructor
  · intro hct
    simp only [clock_reset, update_clock_frequencies, hct]
    exact ⟨rfl, rfl, rfl⟩
  · intro hct
    simp only [clock_reset, update_clock_frequencies, hct]
    exact ⟨rfl, rfl, rfl, rfl⟩

/-- Witness for claim C6's theorem at concrete devices of both families. -/
theorem spec_C6_wit :
    (clock_reset basic_clk).bcsctl1 = 0x84 ∧ (clock_reset plus_clk).bcsctl3 = 0x03 :=
  ⟨((spec_C6 basic_clk).1 rfl).2.1, ((spec_C6 plus_clk).2 rfl).2.2.2⟩

/-- Claim C8: the Hz formatter produces the specified examples exactly
(callers pass a 20-byte buffer): 1000000 → "1MHz", 32768 → "32.768kHz",
0 → "0Hz". -/
theorem spec_C8 :
    to_frequency 1000000 20 = "1MHz"
    ∧ to_frequency 32768 20 = "32.768kHz"
    ∧ to_frequency 0 20 = "0Hz" := by
  refine ⟨by decide, by decide, by decide⟩


/-- Claim C5: with modulation 0 the oscillator model degenerates to the pure
tap frequency — `calc_dcoclk` returns exactly the truncated tap frequency
`dco_tap`, with no dependence on the interpolation (hypotheses: the tap
frequency and the tap-step ratio are nonzero, which makes the interpolation
denominator nonzero as in the C code); and on a freshly created Basic device
at tap 3, modulation 0, range 4 (`dcoctl = 0x60`, `bcsctl1 = 0x84`) the
result is exactly the configured baseline 750000 Hz, matching the reset-state
oscillator output `dco_hz`. -/
theorem spec_C5 (clk : Clock) (dcoctl bcsctl1 : Nat)
    (hmod : dcoctl &&& 0x1f = 0)
    (hf : (dco_tap clk dcoctl bcsctl1).val ≠ 0)
    (hs : clk.sdco.val ≠ 0) :
    calc_dcoclk clk dcoctl bcsctl1 = cIntOfFrac (dco_tap clk dcoctl bcsctl1)
    ∧ calc_dcoclk basic_clk 0x60 0x84 = 750000
    ∧ (clock_reset basic_clk).dco_hz = 750000 := by
  obtain ⟨hfn, hfd⟩ := Frac.comp_ne_zero _ hf
  obtain ⟨hsn, hsd⟩ := Frac.comp_ne_zero _ hs
  refine ⟨?_, by decide, by decide⟩
  set f := dco_tap clk dcoctl bcsctl1 with hfdef
  set s := clk.sdco with hsdef
  rw [calc_dcoclk, hmod]
  have hK : (32 * f.n * s.n * f.d * f.d * s.d : Int) ≠ 0 :=
    mul_ne_zero (mul_ne_zero (mul_ne_zero (mul_ne_zero
      (mul_ne_zero (by norm_num) hfn) hsn) hfd) hfd) hsd
  have hn : (dco_interp f s 0).n = (32 * f.n * s.n * f.d * f.d * s.d) * f.n := by
    simp only [dco_interp, Frac.div_n, Frac.div_d, Frac.mul_n, Frac.mul_d, Frac.add_n,
      Frac.add_d, Frac.ofInt_n, Frac.ofInt_d, Nat.cast_zero]
    ring
  have hd2 : (dco_interp f s 0).d = (32 * f.n * s.n * f.d * f.d * s.d) * f.d := by
    simp only [dco_interp, Frac.div_n, Frac.div_d, Frac.mul_n, Frac.mul_d, Frac.add_n,
      Frac.add_d, Frac.ofInt_n, Frac.ofInt_d, Nat.cast_zero]
    ring
  rw [cIntOfFrac, hn, hd2, mul_tdiv_mul_cancel _ _ _ hK]
  rfl

/-- Witness for claim C5's theorem at the scenario input: a fresh Basic
device with `dcoctl = 0x60` (tap 3, modulation 0) and `bcsctl1 = 0x84`
(range 4). -/
theorem spec_C5_wit :
    calc_dcoclk basic_clk 0x60 0x84 = cIntOfFrac (dco_tap basic_clk 0x60 0x84) :=
  (spec_C5 basic_clk 0x60 0x84 (by decide)
    (by rw [show dco_tap basic_clk 0x60 0x84 = ⟨750000, 1⟩ from by decide]
        norm_num [Frac.val])
    (by rw [show basic_clk.sdco = ⟨28, 25⟩ from rfl]
        norm_num [Frac.val])).1

/-- Dispatch: `clock_config` with key `"srsel"` reaches `config_ratio` targeting the
`srsel` field, for every state and argument. -/
theorem clock_config_srsel (clk : Clock) (arg : Option String) :
    clock_config clk "srsel" arg =
      config_ratio clk (fun c v => { c with srsel := v }) arg := by
  rw [clock_config,
    if_neg (by decide : ¬ (str_ieq "srsel" "lfxt1" = true)),
    if_neg (by decide : ¬ (str_ieq "srsel" "xt2" = true)),
    if_neg ((fun h => absurd h.2 (by decide)) :
      ¬ (clk.clock_type = ClockType.basic ∧ str_ieq "srsel" "dco4_3" = true)),
    if_neg ((fun h => absurd h.2 (by decide)) :
      ¬ (clk.clock_type = ClockType.basicPlus ∧ str_ieq "srsel" "vlo" = true)),
    if_neg ((fun h => absurd h.2 (by decide)) :
      ¬ (clk.clock_type = ClockType.basicPlus ∧ str_ieq "srsel" "dco7_3" = true)),
    if_pos (by decide : str_ieq "srsel" "srsel" = true)]

/-- Dispatch: `clock_config` with key `"sdco"` reaches `config_ratio` targeting the
`sdco` field, for every state and argument. -/
theorem clock_config_sdco (clk : Clock) (arg : Option String) :
    clock_config clk "sdco" arg =
      config_ratio clk (fun c v => { c with sdco := v }) arg := by
  rw [clock_config,
    if_neg (by decide : ¬ (str_ieq "sdco" "lfxt1" = true)),
    if_neg (by decide : ¬ (str_ieq "sdco" "xt2" = true)),
    if_neg ((fun h => absurd h.2 (by decide)) :
      ¬ (clk.clock_type = ClockType.basic ∧ str_ieq "sdco" "dco4_3" = true)),
    if_neg ((fun h => absurd h.2 (by decide)) :
      ¬ (clk.clock_type = ClockType.basicPlus ∧ str_ieq "sdco" "vlo" = true)),
    if_neg ((fun h => absurd h.2 (by decide)) :
      ¬ (clk.clock_type = ClockType.basicPlus ∧ str_ieq "sdco" "dco7_3" = true)),
    if_neg (by decide : ¬ (str_ieq "sdco" "srsel" = true)),
    if_pos (by decide : str_ieq "sdco" "sdco" = true)]

/-- Case analysis of `config_ratio` on a successfully parsed token: exact
characterization of the acceptance condition (the open interval between 1.0
and 1.8), of both rejection diagnoses with the offending value, and of the
successful store. -/
theorem config_ratio_cases (clk : Clock) (set : Clock → Frac → Clock) (s : String) (v : Frac)
    (hp : parse_decimal s = some v) :
    ((( config_ratio clk set (some s)).1 = CResult.ok) ↔ (1 < v.val ∧ v.val < 9 / 5))
    ∧ (v.val ≤ 1 → config_ratio clk set (some s) = (CResult.err_low v, clk))
    ∧ ((9 / 5 : ℚ) ≤ v.val → config_ratio clk set (some s) = (CResult.err_high v, clk))
    ∧ (1 < v.val ∧ v.val < 9 / 5 →
        config_ratio clk set (some s) =
          (CResult.ok, update_clock_frequencies (set clk v))) := by
  have hd := parse_decimal_den_pos s v hp
  have hle1 := Frac.val_le_one_iff v hd
  have hge95 := Frac.nine_fifths_le_val_iff v hd
  simp only [config_ratio, hp]
  by_cases h1 : v.n ≤ v.d
  · rw [if_pos h1]
    have hv1 : v.val ≤ 1 := hle1.mpr h1
    refine ⟨?_, fun _ => rfl, ?_, ?_⟩
    · constructor
      · intro he
        exact absurd he (by simp)
      · rintro ⟨hgt, -⟩
        exfalso
        linarith
    · intro h95
      exfalso
      linarith
    · rintro ⟨hgt, -⟩
      exfalso
      linarith
  · rw [if_neg h1]
    have hgt1 : 1 < v.val := lt_of_not_le (fun hle => h1 (hle1.mp hle))
    by_cases h2 : 9 * v.d ≤ 5 * v.n
    · rw [if_pos h2]
      have hv95 : (9 / 5 : ℚ) ≤ v.val := hge95.mpr h2
      refine ⟨?_, ?_, fun _ => rfl, ?_⟩
      · constructor
        · intro he
          exact absurd he (by simp)
        · rintro ⟨-, hlt⟩
          exfalso
          linarith
      · intro hle
        exfalso
        linarith
      · rintro ⟨-, hlt⟩
        exfalso
        linarith
    · rw [if_neg h2]
      have hlt95 : v.val < 9 / 5 := lt_of_not_le (fun hge => h2 (hge95.mp hge))
      refine ⟨?_, ?_, ?_, fun _ => rfl⟩
      · exact ⟨fun _ => ⟨hgt1, hlt95⟩, fun _ => rfl⟩
      · intro hle
        exfalso
        linarith
      · intro hge
        exfalso
        linarith

/-- Claim C7: `config` with key `srsel` or `sdco` succeeds exactly when the
token parses as a decimal strictly between 1.0 and 1.8 (= 9/5), in which case
the parsed value is stored in the corresponding field; values at or outside
the bounds are rejected with a `ConfigError` carrying the offending value and
the state unchanged.  In particular `"1.0"` and `"1.8"` are rejected while
`"1.5"` succeeds. -/
theorem spec_C7 (clk : Clock) (key s : String) (v : Frac)
    (hkey : key = "srsel" ∨ key = "sdco")
    (hp : parse_decimal s = some v) :
    (((clock_config clk key (some s)).1 = CResult.ok) ↔ (1 < v.val ∧ v.val < 9 / 5))
    ∧ (v.val ≤ 1 → clock_config clk key (some s) = (CResult.err_low v, clk))
    ∧ ((9 / 5 : ℚ) ≤ v.val → clock_config clk key (some s) = (CResult.err_high v, clk))
    ∧ (1 < v.val ∧ v.val < 9 / 5 →
        (clock_config clk key (some s)).1 = CResult.ok
        ∧ (if key = "srsel" then (clock_config clk key (some s)).2.srsel
            else (clock_config clk key (some s)).2.sdco) = v)
    ∧ (clock_config clk "srsel" (some "1.0")).1 = CResult.err_low ⟨10, 10⟩
    ∧ (clock_config clk "srsel" (some "1.8")).1 = CResult.err_high ⟨18, 10⟩
    ∧ (clock_config clk "srsel" (some "1.5")).1 = CResult.ok := by
  have e1 : (clock_config clk "srsel" (some "1.0")).1 = CResult.err_low ⟨10, 10⟩ := by
    rw [clock_config_srsel,
      (config_ratio_cases clk _ "1.0" ⟨10, 10⟩ (by decide)).2.1 (by norm_num [Frac.val])]
  have e2 : (clock_config clk "srsel" (some "1.8")).1 = CResult.err_high ⟨18, 10⟩ := by
    rw [clock_config_srsel,
      (config_ratio_cases clk _ "1.8" ⟨18, 10⟩ (by decide)).2.2.1 (by norm_num [Frac.val])]
  have e3 : (clock_config clk "srsel" (some "1.5")).1 = CResult.ok := by
    rw [clock_config_srsel]
    exact (config_ratio_cases clk _ "1.5" ⟨15, 10⟩ (by decide)).1.mpr
      (by constructor <;> norm_num [Frac.val])
  rcases hkey with rfl | rfl
  · obtain ⟨hiff, hlow, hhigh, hok⟩ :=
      config_ratio_cases clk (fun c v => { c with srsel := v }) s v hp
    rw [clock_config_srsel clk (some s)]
    refine ⟨hiff, hlow, hhigh, ?_, e1, e2, e3⟩
    intro hcond
    rw [hok hcond]
    exact ⟨rfl, by rw [if_pos rfl]; rfl⟩
  · obtain ⟨hiff, hlow, hhigh, hok⟩ :=
      config_ratio_cases clk (fun c v => { c with sdco := v }) s v hp
    rw [clock_config_sdco clk (some s)]
    refine ⟨hiff, hlow, hhigh, ?_, e1, e2, e3⟩
    intro hcond
    rw [hok hcond]
    exact ⟨rfl, by rw [if_neg (by decide : ¬ ("sdco" = "srsel"))]; rfl⟩

/-- Witness for claim C7's theorem: key `srsel` and token `"1.5"` on a fresh
Basic device. -/
theorem spec_C7_wit :
    (clock_config basic_clk "srsel" (some "1.5")).1 = CResult.ok :=
  (spec_C7 basic_clk "srsel" "1.5" ⟨15, 10⟩ (Or.inl rfl) (by decide)).2.2.2.2.2.2

/-- Claim C9: for every address outside the family-conditional mapped set
(`clock_addrs`), a write returns `NotMine` with the state unchanged and a
read returns `NotMine` (the read function never modifies the state on any
path, as reflected by its state-free embedding). -/
theorem spec_C9 (clk : Clock) (addr data : Nat)
    (h : addr ∉ clock_addrs clk.clock_type) :
    clock_write_b clk addr data = (false, clk) ∧ clock_read_b clk addr = none := by
  cases hct : clk.clock_type with
  | basic =>
    rw [hct] at h
    have h1 : addr ≠ DCOCTL := fun he => h (by rw [he]; decide)
    have h2 : addr ≠ BCSCTL1 := fun he => h (by rw [he]; decide)
    have h3 : addr ≠ BCSCTL2 := fun he => h (by rw [he]; decide)
    constructor
    · rw [clock_write_b]
      by_cases hb3 : addr = BCSCTL3
      · rw [if_pos hb3, if_neg (show ¬ clk.clock_type = ClockType.basicPlus by
          rw [hct]; decide)]
      · rw [if_neg hb3, if_neg h1, if_neg h2, if_neg h3]
    · rw [clock_read_b, if_neg h1, if_neg h2, if_neg h3,
        if_neg (show ¬ clk.clock_type = ClockType.basicPlus by rw [hct]; decide)]
  | basicPlus =>
    rw [hct] at h
    have h1 : addr ≠ DCOCTL := fun he => h (by rw [he]; decide)
    have h2 : addr ≠ BCSCTL1 := fun he => h (by rw [he]; decide)
    have h3 : addr ≠ BCSCTL2 := fun he => h (by rw [he]; decide)
    have h4 : addr ≠ BCSCTL3 := fun he => h (by rw [he]; decide)
    have h5 : addr ≠ CALDCO_16MHZ := fun he => h (by rw [he]; decide)
    have h6 : addr ≠ CALBC1_16MHZ := fun he => h (by rw [he]; decide)
    have h7 : addr ≠ CALDCO_12MHZ := fun he => h (by rw [he]; decide)
    have h8 : addr ≠ CALBC1_12MHZ := fun he => h (by rw [he]; decide)
    have h9 : addr ≠ CALDCO_8MHZ := fun he => h (by rw [he]; decide)
    have h10 : addr ≠ CALBC1_8MHZ := fun he => h (by rw [he]; decide)
    have h11 : addr ≠ CALDCO_1MHZ := fun he => h (by rw [he]; decide)
    have h12 : addr ≠ CALBC1_1MHZ := fun he => h (by rw [he]; decide)
    constructor
    · rw [clock_write_b, if_neg h4, if_neg h1, if_neg h2, if_neg h3]
    · rw [clock_read_b, if_neg h1, if_neg h2, if_neg h3, if_pos hct, if_neg h4,
        if_neg (not_or.mpr ⟨h5, h6⟩), if_neg (not_or.mpr ⟨h7, h8⟩),
        if_neg (not_or.mpr ⟨h9, h10⟩), if_neg (not_or.mpr ⟨h11, h12⟩)]

/-- Witness for claim C9's theorem: address `0x100` on a fresh Basic
device. -/
theorem spec_C9_wit :
    clock_write_b basic_clk 0x100 0x12 = (false, basic_clk)
    ∧ clock_read_b basic_clk 0x100 = none :=
  spec_C9 basic_clk 0x100 0x12 (by decide)

/-- Every error path of `config_frequency` (missing argument, malformed
token) returns before the store, leaving the device unchanged. -/
theorem config_frequency_frame (clk : Clock) (set : Clock → Int → Clock) (arg : Option String)
    (h : (config_frequency clk set arg).1 ≠ CResult.ok) :
    (config_frequency clk set arg).2 = clk := by
  match arg with
  | none => rfl
  | some t =>
    simp only [config_frequency] at h ⊢
    split at h
    · rfl
    · exact absurd rfl h

/-- Every error path of `config_ratio` (missing argument, malformed token,
out-of-bounds value) returns before the store, leaving the device
unchanged. -/
theorem config_ratio_frame (clk : Clock) (set : Clock → Frac → Clock) (arg : Option String)
    (h : ( config_ratio clk set arg).1 ≠ CResult.ok) :
    ( config_ratio clk set arg).2 = clk := by
  match arg with
  | none => rfl
  | some s =>
    simp only [config_ratio] at h ⊢
    split at h
    · rfl
    · rename_i v hq
      by_cases h1 : v.n ≤ v.d
      · rw [if_pos h1]
      · rw [if_neg h1] at h ⊢
        by_cases h2 : 9 * v.d ≤ 5 * v.n
        · rw [if_pos h2]
        · rw [if_neg h2] at h
          exact absurd rfl h

/-- Claim C10: `clock_config` is atomic on failure — whenever it returns any
`ConfigError` (missing argument, malformed frequency or ratio token,
out-of-range ratio, unknown or family-inapplicable key), the returned device
state is exactly the input state. -/
theorem spec_C10 (clk : Clock) (param : String) (arg : Option String)
    (h : (clock_config clk param arg).1 ≠ CResult.ok) :
    (clock_config clk param arg).2 = clk := by
  rw [clock_config] at h ⊢
  split_ifs at h ⊢
  all_goals first
    | exact config_frequency_frame _ _ _ h
    | exact config_ratio_frame _ _ _ h
    | rfl

/-- Witness for claim C10's theorem: an unknown key on a fresh Basic
device. -/
theorem spec_C10_wit : (clock_config basic_clk "bogus" none).2 = basic_clk :=
  spec_C10 basic_clk "bogus" none (by decide)


end MspClock
